import Mathlib

/-!
Verification of the gpupgrade hub's connection lifecycle, fan-out, topology
helpers and configuration persistence, as a shallow embedding of the Go
sources (hub server, config package, CLI commanders) into Lean.

Conventions used throughout:
* Go errors are modelled as `Option String` (`some msg` = non-nil error) or
  `Except String α` for fallible results; `errorlist` aggregates are modelled
  as `List String` with `[]` standing for a nil aggregate.
* Go's `fmt`/`xerrors` format strings become explicit string concatenation.
* Nondeterminism that Go leaves unspecified (map iteration order) is modelled
  relationally, as the set of results the code may return.
-/

/-- gRPC transport connectivity states (google.golang.org/grpc/connectivity)
as observed by `conn.Conn.GetState()`. -/
inductive ConnState
  | ready
  | idle
  | connecting
  | transientFailure
  | shutdown
deriving DecidableEq, Repr

/-- gRPC status codes (google.golang.org/grpc/codes); only the codes the hub
inspects are distinguished, all others are collapsed into `unknown`/`other`. -/
inductive GrpcCode
  | ok
  | unavailable
  | unknown
  | deadlineExceeded
  | other
deriving DecidableEq, Repr

/-- The gRPC status carried by a failed RPC, as recovered by
`grpcStatus.Convert(err)` in `Server.StopAgents`. -/
structure GrpcStatus where
  code : GrpcCode
  message : String
deriving DecidableEq, Repr

/-- Outcome of one hub-to-agent `StopAgent` RPC: either the agent replied
normally (`reply`), or the call failed with a gRPC status (`rpcError`). -/
inductive RPCOutcome
  | reply
  | rpcError (status : GrpcStatus)
deriving DecidableEq, Repr

/-- A hub-side agent connection handle (`idl.Connection`): the target
hostname together with the transport state its channel currently reports.
The cancel context and client stub carry no information the claims need. -/
structure Connection where
  hostname : String
  state : ConnState
deriving DecidableEq, Repr

/-- The per-connection `request` closure of `Server.StopAgents`
(hub server source, lines 304-318): a nil RPC error means the agent did NOT
terminate, so it is reported as a failure; an `Unavailable` status with
message "transport is closing" is the expected success signal; every other
error is wrapped naming the host.  `some msg` models returning error `msg`,
`none` models returning nil. -/
def stopAgentRequest (conn : Connection) (outcome : RPCOutcome) : Option String :=
  match outcome with
  | RPCOutcome.reply =>
      some ("failed to stop agent on host: " ++ conn.hostname)
  | RPCOutcome.rpcError status =>
      if status.code ≠ GrpcCode.unavailable ∨ status.message ≠ "transport is closing" then
        some ("failed to stop agent on host " ++ conn.hostname ++ " : " ++ status.message)
      else
        none

/-- The hostnames that `EnsureConnsAreReady` collects: those of connections
whose transport state is not `Ready` (hub server source, lines 475-480). -/
def notReadyHostnames (agentConns : List Connection) : List String :=
  (agentConns.filter (fun conn => decide (conn.state ≠ ConnState.ready))).map Connection.hostname

/-- `EnsureConnsAreReady` (hub server source, lines 474-487): fails naming the
not-ready hosts joined with commas, succeeds otherwise. -/
def EnsureConnsAreReady (agentConns : List Connection) : Option String :=
  let hostnames := notReadyHostnames agentConns
  if hostnames.length > 0 then
    some ("the connections to the following hosts were not ready: " ++
      String.intercalate "," hostnames)
  else
    none

/-- Everything one call to `Server.AgentConns` produces: the returned value,
the contents of the `s.agentConns` cache after the call (`none` models the Go
nil slice), and the hosts that were actually dialed during the call. -/
structure AgentConnsCall where
  result : Except String (List Connection)
  cache : Option (List Connection)
  dialed : List String

/-- The dial loop of `Server.AgentConns` (hub server source, lines 453-471):
hosts are dialed in order with `acc` playing the role of `s.agentConns`
(appended to in place); the first dial failure aborts the loop, returning an
error while the already-dialed connections stay in the cache.  The dialer
environment returns the transport state of a successfully dialed connection,
or the dial error. -/
def dialAgents (dialer : String → Except String ConnState) :
    List String → List Connection → List String → AgentConnsCall
  | [], acc, dialed =>
      ⟨Except.ok acc, if acc.isEmpty then none else some acc, dialed⟩
  | host :: rest, acc, dialed =>
      match dialer host with
      | Except.error e =>
          ⟨Except.error ("agent connections: " ++ e),
            if acc.isEmpty then none else some acc, dialed ++ [host]⟩
      | Except.ok st => dialAgents dialer rest (acc ++ [⟨host, st⟩]) (dialed ++ [host])

/-- The hub server state relevant to the connection cache: the cached agent
connections (`none` = Go nil slice, i.e. never populated) and the agent host
enumeration that `AgentHosts(s.Source)` produces for it. -/
structure Server where
  agentConns : Option (List Connection)
  hosts : List String

/-- `Server.AgentConns` (hub server source, lines 435-472): with a non-nil
cache it only re-validates readiness (no dialing); with a nil cache it dials
every agent host in order. -/
def Server.AgentConns (s : Server) (dialer : String → Except String ConnState) :
    AgentConnsCall :=
  match s.agentConns with
  | some conns =>
      match EnsureConnsAreReady conns with
      | some e =>
          ⟨Except.error ("ensuring agent connections are ready: " ++ e), some conns, []⟩
      | none => ⟨Except.ok conns, some conns, []⟩
  | none => dialAgents dialer s.hosts [] []

lemma notReadyHostnames_ne_nil {conns : List Connection}
    (h : ∃ c ∈ conns, c.state ≠ ConnState.ready) :
    notReadyHostnames conns ≠ [] := by
  obtain ⟨c, hc, hs⟩ := h
  have : c ∈ conns.filter (fun conn => decide (conn.state ≠ ConnState.ready)) :=
    List.mem_filter.mpr ⟨hc, by simpa using hs⟩
  intro hnil
  simp only [notReadyHostnames, List.map_eq_nil_iff] at hnil
  rw [hnil] at this
  exact (List.not_mem_nil c) this

lemma dialAgents_failAt (dialer : String → Except String ConnState)
    (pre post : List String) (h e : String)
    (hpre : ∀ x ∈ pre, dialer x = Except.ok ConnState.ready)
    (hfail : dialer h = Except.error e) :
    ∀ acc dialed,
      dialAgents dialer (pre ++ h :: post) acc dialed =
        ⟨Except.error ("agent connections: " ++ e),
          if (acc ++ pre.map (fun x => Connection.mk x ConnState.ready)).isEmpty then none
          else some (acc ++ pre.map (fun x => Connection.mk x ConnState.ready)),
          dialed ++ pre ++ [h]⟩ := by
  induction pre with
  | nil =>
      intro acc dialed
      simp [dialAgents, hfail]
  | cons x rest ih =>
      intro acc dialed
      have hx : dialer x = Except.ok ConnState.ready := hpre x (by simp)
      have hrest : ∀ y ∈ rest, dialer y = Except.ok ConnState.ready :=
        fun y hy => hpre y (by simp [hy])
      simp only [List.cons_append, dialAgents, hx, List.append_eq]
      rw [ih hrest (acc ++ [Connection.mk x ConnState.ready]) (dialed ++ [x])]
      simp

/-- Claim C1: for every agent connection, the hub's StopAgents request handler
treats a StopAgent RPC that returns a normal reply as a failure to stop that
agent (the error names the host), treats an RPC error whose gRPC status is
Unavailable with message "transport is closing" as success, and treats any
other error outcome as a failure naming the host. -/
theorem stopAgents_reply_failure_transportClosing_success
    (conn : Connection) (outcome : RPCOutcome) :
    (outcome = RPCOutcome.reply →
      stopAgentRequest conn outcome =
        some ("failed to stop agent on host: " ++ conn.hostname)) ∧
    (∀ status, outcome = RPCOutcome.rpcError status →
      ((status.code = GrpcCode.unavailable ∧ status.message = "transport is closing") →
        stopAgentRequest conn outcome = none) ∧
      ((status.code ≠ GrpcCode.unavailable ∨ status.message ≠ "transport is closing") →
        stopAgentRequest conn outcome =
          some ("failed to stop agent on host " ++ conn.hostname ++ " : " ++
            status.message))) := by
  constructor
  · intro hr
    subst hr
    rfl
  · intro status hr
    subst hr
    constructor
    · rintro ⟨hc, hm⟩
      simp [stopAgentRequest, hc, hm]
    · intro hne
      simp only [stopAgentRequest, if_pos hne]

/-- Witness for C1: the three treatments evaluated on the host sdw1. -/
theorem stopAgents_reply_failure_transportClosing_success_witness :
    stopAgentRequest ⟨"sdw1", ConnState.ready⟩ RPCOutcome.reply
        = some ("failed to stop agent on host: " ++ "sdw1") ∧
    stopAgentRequest ⟨"sdw1", ConnState.ready⟩
        (RPCOutcome.rpcError ⟨GrpcCode.unavailable, "transport is closing"⟩) = none ∧
    stopAgentRequest ⟨"sdw1", ConnState.ready⟩
        (RPCOutcome.rpcError ⟨GrpcCode.unknown, "connection refused"⟩)
        = some ("failed to stop agent on host " ++ "sdw1" ++ " : " ++ "connection refused") :=
  ⟨(stopAgents_reply_failure_transportClosing_success ⟨"sdw1", ConnState.ready⟩
      RPCOutcome.reply).1 rfl,
   ((stopAgents_reply_failure_transportClosing_success ⟨"sdw1", ConnState.ready⟩
      (RPCOutcome.rpcError ⟨GrpcCode.unavailable, "transport is closing"⟩)).2
      ⟨GrpcCode.unavailable, "transport is closing"⟩ rfl).1 ⟨rfl, rfl⟩,
   ((stopAgents_reply_failure_transportClosing_success ⟨"sdw1", ConnState.ready⟩
      (RPCOutcome.rpcError ⟨GrpcCode.unknown, "connection refused"⟩)).2
      ⟨GrpcCode.unknown, "connection refused"⟩ rfl).2 (Or.inl (by decide))⟩

/-- Claim C3: whenever AgentConns is called while a cached (non-nil) connection
set exists and at least one cached connection is not Ready, the call returns a
"connections not ready" error naming exactly the not-ready hosts, performs no
dial, and leaves the cached connection set unchanged. -/
theorem agentConns_cached_notReady_noRedial (s : Server)
    (dialer : String → Except String ConnState) (conns : List Connection)
    (hcache : s.agentConns = some conns)
    (hnotready : ∃ c ∈ conns, c.state ≠ ConnState.ready) :
    s.AgentConns dialer =
      ⟨Except.error ("ensuring agent connections are ready: " ++
          ("the connections to the following hosts were not ready: " ++
            String.intercalate "," (notReadyHostnames conns))),
        some conns, []⟩ := by
  have hne := notReadyHostnames_ne_nil hnotready
  have hlen : (notReadyHostnames conns).length > 0 :=
    List.length_pos.mpr hne
  simp [Server.AgentConns, hcache, EnsureConnsAreReady, hlen]

/-- Witness for C3: a cached pair of connections with sdw1 idle; the call fails
naming sdw1 only, with no dial and the cache intact. -/
theorem agentConns_cached_notReady_noRedial_witness :
    Server.AgentConns ⟨some [⟨"sdw1", ConnState.idle⟩, ⟨"sdw2", ConnState.ready⟩],
        ["sdw1", "sdw2"]⟩ (fun _ => Except.error "unused")
      = ⟨Except.error ("ensuring agent connections are ready: " ++
            ("the connections to the following hosts were not ready: " ++
              String.intercalate ","
                (notReadyHostnames
                  [⟨"sdw1", ConnState.idle⟩, ⟨"sdw2", ConnState.ready⟩]))),
          some [⟨"sdw1", ConnState.idle⟩, ⟨"sdw2", ConnState.ready⟩], []⟩ :=
  agentConns_cached_notReady_noRedial _ _ _ rfl
    ⟨⟨"sdw1", ConnState.idle⟩, by decide, by decide⟩

/-- Claim C10: if the first AgentConns call fails on the (k+1)-th dial after k
earlier dials succeeded (k > 0), the k already-dialed connections remain stored
in the connection cache even though an error is returned; a subsequent call
sees the non-nil cache and, with those k connections Ready, returns exactly
those k connections while dialing no further host. -/
theorem agentConns_partial_dial_failure_caches (dialer : String → Except String ConnState)
    (pre post : List String) (h e : String)
    (hk : pre ≠ [])
    (hpre : ∀ x ∈ pre, dialer x = Except.ok ConnState.ready)
    (hfail : dialer h = Except.error e) :
    Server.AgentConns ⟨none, pre ++ h :: post⟩ dialer =
      ⟨Except.error ("agent connections: " ++ e),
        some (pre.map (fun x => Connection.mk x ConnState.ready)), pre ++ [h]⟩ ∧
    Server.AgentConns ⟨some (pre.map (fun x => Connection.mk x ConnState.ready)),
        pre ++ h :: post⟩ dialer =
      ⟨Except.ok (pre.map (fun x => Connection.mk x ConnState.ready)),
        some (pre.map (fun x => Connection.mk x ConnState.ready)), []⟩ := by
  constructor
  · show dialAgents dialer (pre ++ h :: post) [] [] = _
    rw [dialAgents_failAt dialer pre post h e hpre hfail [] []]
    cases pre with
    | nil => exact absurd rfl hk
    | cons a l => simp [List.isEmpty]
  · have hready : notReadyHostnames (pre.map (fun x => Connection.mk x ConnState.ready)) = [] := by
      simp only [notReadyHostnames, List.map_eq_nil_iff, List.filter_eq_nil_iff]
      intro c hc
      obtain ⟨x, _, hx⟩ := List.mem_map.mp hc
      subst hx
      simp
    simp [Server.AgentConns, EnsureConnsAreReady, hready]

/-- A concrete dial environment: every host dials to a Ready connection except
sdw3, whose dial times out. -/
def c10dialer : String → Except String ConnState := fun host =>
  if host = "sdw3" then Except.error "context deadline exceeded"
  else Except.ok ConnState.ready

/-- Witness for C10: four hosts, the dial to sdw3 fails after sdw1 and sdw2
succeeded; the two dialed connections stay cached and the second call returns
them without dialing sdw4. -/
theorem agentConns_partial_dial_failure_caches_witness :
    Server.AgentConns ⟨none, ["sdw1", "sdw2"] ++ "sdw3" :: ["sdw4"]⟩ c10dialer =
      ⟨Except.error ("agent connections: " ++ "context deadline exceeded"),
        some (["sdw1", "sdw2"].map (fun x => Connection.mk x ConnState.ready)),
        ["sdw1", "sdw2"] ++ ["sdw3"]⟩ ∧
    Server.AgentConns ⟨some (["sdw1", "sdw2"].map (fun x => Connection.mk x ConnState.ready)),
        ["sdw1", "sdw2"] ++ "sdw3" :: ["sdw4"]⟩ c10dialer =
      ⟨Except.ok (["sdw1", "sdw2"].map (fun x => Connection.mk x ConnState.ready)),
        some (["sdw1", "sdw2"].map (fun x => Connection.mk x ConnState.ready)), []⟩ :=
  agentConns_partial_dial_failure_caches c10dialer ["sdw1", "sdw2"] ["sdw4"] "sdw3"
    "context deadline exceeded" (by decide)
    (by
      intro x hx
      simp only [List.mem_cons, List.mem_singleton] at hx
      rcases hx with hx | hx | hx
      · subst hx; rfl
      · subst hx; rfl
      · exact absurd hx (by simp))
    rfl

/-- The hub lifecycle gate of the Server struct (hub server source, lines
208-230): whether `s.server` is non-nil (set by Start), whether Start's serve
loop is still running (and will therefore send the completion token on
`s.stopped` once the gRPC server is stopped), and `s.stopped` itself —
`none` models the Go nil channel, `some n` a channel holding n tokens. -/
structure HubGate where
  serverSet : Bool
  serving : Bool
  stoppedChan : Option Nat
deriving DecidableEq, Repr

/-- `New` (hub server source, lines 232-241): fresh gate with an empty,
non-nil stopped channel of capacity one. -/
def newHubGate : HubGate := ⟨false, false, some 0⟩

/-- The lifecycle effect of `Server.Start` (hub server source, lines 249-290)
up to the point where `Serve` runs: under the lock, a nil stopped channel
means Stop already completed, so Start fails with ErrHubStopped; otherwise
the gRPC server is installed and the serve loop begins. -/
def HubGate.start (g : HubGate) : Except String HubGate :=
  match g.stoppedChan with
  | none => Except.error "hub is stopped"
  | some n => Except.ok ⟨true, true, some n⟩

/-- `Server.Stop` (hub server source, lines 329-346).  If `s.server` is
non-nil the call stops the gRPC server — which makes a still-running serve
loop return and send one token on `s.stopped` (line 287) — and then receives
from `s.stopped`; receiving from the nil channel, or from an empty channel
with no sender left, blocks forever, which `none` models.  On return the
stopped flag is set to nil. -/
def HubGate.stop (g : HubGate) : Option HubGate :=
  if g.serverSet then
    match (if g.serving then g.stoppedChan.map (· + 1) else g.stoppedChan) with
    | none => none
    | some 0 => none
    | some (_ + 1) => some ⟨g.serverSet, false, none⟩
  else
    some ⟨g.serverSet, g.serving, none⟩

/-- Counterexample to claim C4: on a hub whose Start ran, the first Stop
completes (consuming the serve loop's token and nilling the gate), but the
second sequential Stop blocks forever — `s.server` is still non-nil, so it
receives from the now-nil `s.stopped` channel. -/
theorem stop_twice_after_start_blocks :
    newHubGate.start = Except.ok ⟨true, true, some 0⟩ ∧
    HubGate.stop ⟨true, true, some 0⟩ = some ⟨true, false, none⟩ ∧
    HubGate.stop ⟨true, false, none⟩ = none :=
  ⟨rfl, rfl, rfl⟩

/-- Claim C4 (amended): a second sequential Stop is a safe, non-blocking
no-op exactly on a hub whose Start never installed the gRPC server
(`s.server` nil); it nils the stopped flag and further Stops return the same
state without blocking.  (If Start had run, the second Stop blocks forever on
the nil channel, per the counterexample.) -/
theorem stop_twice_noop_when_never_started (g g' : HubGate)
    (hns : g.serverSet = false) (h1 : g.stop = some g') :
    g' = ⟨g.serverSet, g.serving, none⟩ ∧ g'.stop = some g' := by
  have hstop : g.stop = some ⟨g.serverSet, g.serving, none⟩ := by
    simp [HubGate.stop, hns]
  rw [hstop] at h1
  obtain rfl : g' = ⟨g.serverSet, g.serving, none⟩ := (Option.some_injective _ h1).symm
  exact ⟨rfl, by simp [HubGate.stop, hns]⟩

/-- Witness for the amended C4: a fresh hub whose Start never ran; the first
Stop nils the gate and the second Stop is a non-blocking no-op. -/
theorem stop_twice_noop_when_never_started_witness :
    (⟨false, false, none⟩ : HubGate) = ⟨newHubGate.serverSet, newHubGate.serving, none⟩ ∧
    HubGate.stop ⟨false, false, none⟩ = some ⟨false, false, none⟩ :=
  stop_twice_noop_when_never_started newHubGate ⟨false, false, none⟩ rfl rfl

/-- Per-host environment for the `RestartAgents` helper (hub server source,
lines 362-433): either the short-timeout dial succeeded (the agent is
reachable; closing the probe connection may itself fail), or the dial failed
and the ssh restart command succeeded, or the dial failed and resolving the
gpupgrade path / running the ssh command failed. -/
inductive RestartOutcome
  | reachable (closeErr : Option String)
  | restarted (stdout : String)
  | restartFailed (e : String)
deriving DecidableEq, Repr

/-- The `RestartAgents` helper (hub server source, lines 362-433): one unit of
work per host, all run to completion; the restarted-host channel and the error
channel are drained after `wg.Wait()`.  `errorlist.Append` is modelled from
the spec ("collects every non-nil error ... none are silently dropped") as an
ordered list, `[]` standing for a nil aggregate.  Channel drain order is
unspecified in Go; the embedding lists results in host order. -/
def RestartAgents (env : String → RestartOutcome) : List String → List String × List String
  | [] => ([], [])
  | host :: rest =>
      let r := RestartAgents env rest
      match env host with
      | RestartOutcome.reachable none => r
      | RestartOutcome.reachable (some ce) =>
          (r.1, ("failed to close agent connection to " ++ host ++ ": " ++ ce) :: r.2)
      | RestartOutcome.restarted _ => (host :: r.1, r.2)
      | RestartOutcome.restartFailed e => (r.1, e :: r.2)

/-- The reply of the RestartAgents RPC (idl.RestartAgentsReply). -/
structure RestartAgentsReply where
  agentHosts : List String
deriving DecidableEq, Repr

/-- The `Server.RestartAgents` RPC handler (hub server source, lines 348-360):
it runs the helper over the agent hosts, and if the helper returned any error
it replies with an EMPTY `RestartAgentsReply` plus the aggregate error;
otherwise it re-validates agent connections and, on success, replies with the
restarted hosts. -/
def Server.RestartAgentsRPC (s : Server) (env : String → RestartOutcome)
    (dialer : String → Except String ConnState) : RestartAgentsReply × List String :=
  let r := RestartAgents env s.hosts
  if r.2 ≠ [] then (⟨[]⟩, r.2)
  else
    match (s.AgentConns dialer).result with
    | Except.error e => (⟨[]⟩, ["ensuring agent connections are ready: " ++ e])
    | Except.ok _ => (⟨r.1⟩, [])

/-- A concrete restart environment: sdw1 is unreachable and its agent is
restarted successfully; sdw2 is unreachable and its ssh restart fails. -/
def c5env : String → RestartOutcome := fun host =>
  if host = "sdw1" then RestartOutcome.restarted "agent started"
  else RestartOutcome.restartFailed "ssh: exit status 255"

/-- Counterexample to claim C5: with sdw1 successfully restarted and sdw2
failing, the helper reports both the restarted host and the error, but the
RPC handler replies with an empty host list — the successfully restarted
host sdw1 is NOT reported in the reply. -/
theorem restartAgentsRPC_drops_restarted_hosts :
    RestartAgents c5env ["sdw1", "sdw2"] = (["sdw1"], ["ssh: exit status 255"]) ∧
    Server.RestartAgentsRPC ⟨none, ["sdw1", "sdw2"]⟩ c5env c10dialer
      = (⟨[]⟩, ["ssh: exit status 255"]) ∧
    "sdw1" ∉ (Server.RestartAgentsRPC ⟨none, ["sdw1", "sdw2"]⟩ c5env c10dialer).1.agentHosts := by
  refine ⟨by decide, by decide, by decide⟩

/-- Claim C5 (amended): the helper aggregates the non-fatal per-host errors
and still returns every successfully restarted host alongside them, but the
RPC handler reports the restarted hosts only when no host failed: on any
per-host error the reply's host list is empty and only the aggregate error is
returned. -/
theorem restartAgents_aggregates_but_reply_empty_on_error
    (cache : Option (List Connection)) (dialer : String → Except String ConnState)
    (env : String → RestartOutcome) (hosts : List String)
    (herr : (RestartAgents env hosts).2 ≠ []) :
    Server.RestartAgentsRPC ⟨cache, hosts⟩ env dialer = (⟨[]⟩, (RestartAgents env hosts).2) ∧
    ∀ h ∈ hosts, (∃ out, env h = RestartOutcome.restarted out) →
      h ∈ (RestartAgents env hosts).1 := by
  constructor
  · simp [Server.RestartAgentsRPC, herr]
  · intro h hmem hout
    obtain ⟨out, hout⟩ := hout
    clear herr
    induction hosts with
    | nil => exact absurd hmem (List.not_mem_nil h)
    | cons a rest ih =>
        rcases List.mem_cons.mp hmem with rfl | hmem'
        · simp [RestartAgents, hout]
        · have := ih hmem'
          cases henv : env a <;> simp [RestartAgents, henv, this]
          case reachable ce => cases ce <;> simp [this]

/-- Witness for the amended C5 at the concrete two-host environment. -/
theorem restartAgents_aggregates_but_reply_empty_on_error_witness :
    Server.RestartAgentsRPC ⟨none, ["sdw1", "sdw2"]⟩ c5env c10dialer
        = (⟨[]⟩, (RestartAgents c5env ["sdw1", "sdw2"]).2) ∧
    ∀ h ∈ ["sdw1", "sdw2"], (∃ out, c5env h = RestartOutcome.restarted out) →
      h ∈ (RestartAgents c5env ["sdw1", "sdw2"]).1 :=
  restartAgents_aggregates_but_reply_empty_on_error none c10dialer c5env
    ["sdw1", "sdw2"] (by decide)

/-- The two shared-memory accesses each goroutine of
`GenerateDataMigrationScripts` performs on the CAPTURED outer variable `err`
(cli/commanders/initialize.go, lines 212-230): line 222 assigns
`err = GenerateScriptsPerDatabase(...)`, and the following `if err != nil`
reads it back, sending the read value to `errChan`.  `err` is shared by every
goroutine, so these accesses race. -/
inductive RacePhase
  | assign
  | check
deriving DecidableEq, Repr

/-- Shared state of the generate fan-out: the captured `err` variable and the
contents of `errChan` (drained after `wg.Wait()` into the aggregate). -/
structure RaceState where
  sharedErr : Option String
  sent : List String
deriving DecidableEq, Repr

/-- Executes an interleaving of the goroutines' shared accesses.
`results i` is the value goroutine i's `GenerateScriptsPerDatabase` call
produced (`some e` = failed with e, `none` = succeeded). -/
def execGenerateFanout (results : Nat → Option String) :
    List (Nat × RacePhase) → RaceState → RaceState
  | [], st => st
  | (i, RacePhase.assign) :: rest, st =>
      execGenerateFanout results rest ⟨results i, st.sent⟩
  | (_, RacePhase.check) :: rest, st =>
      match st.sharedErr with
      | some e => execGenerateFanout results rest ⟨st.sharedErr, st.sent ++ [e]⟩
      | none => execGenerateFanout results rest st

/-- A schedule is a valid interleaving of n goroutines when every goroutine
performs exactly its assign followed by its check, in program order. -/
def interleavingOf (n : Nat) (sched : List (Nat × RacePhase)) : Prop :=
  (∀ p ∈ sched, p.1 < n) ∧
  ∀ i < n, sched.filter (fun p => decide (p.1 = i))
    = [(i, RacePhase.assign), (i, RacePhase.check)]

/-- The per-database results of the failing run: database 0's script
generation fails, database 1's succeeds. -/
def c2results : Nat → Option String := fun i =>
  if i = 0 then some "generating scripts for db0 failed" else none

/-- Claim C2, evaluated at the failing input (code bug): the fan-out of
`GenerateDataMigrationScripts` assigns every goroutine's result to one shared
captured `err` variable.  Under the valid interleaving in which both
goroutines assign before either checks, the failing goroutine's check reads
`nil` (overwritten by the succeeding goroutine) and sends nothing, so the
single real failure is silently dropped and the fan-out returns a nil
aggregate — while under the sequential interleaving the same results produce
the expected one-element aggregate. -/
theorem generateFanout_race_drops_single_error :
    interleavingOf 2
      [(0, RacePhase.assign), (1, RacePhase.assign), (0, RacePhase.check), (1, RacePhase.check)] ∧
    (execGenerateFanout c2results
      [(0, RacePhase.assign), (1, RacePhase.assign), (0, RacePhase.check), (1, RacePhase.check)]
      ⟨none, []⟩).sent = [] ∧
    interleavingOf 2
      [(0, RacePhase.assign), (0, RacePhase.check), (1, RacePhase.assign), (1, RacePhase.check)] ∧
    (execGenerateFanout c2results
      [(0, RacePhase.assign), (0, RacePhase.check), (1, RacePhase.assign), (1, RacePhase.check)]
      ⟨none, []⟩).sent = ["generating scripts for db0 failed"] := by
  refine ⟨⟨by decide, ?_⟩, by decide, ⟨by decide, ?_⟩, by decide⟩ <;>
    · intro i hi
      interval_cases i <;> decide

/-- One segment record (`greenplum.SegConfig`).  Modelled from the spec — the
greenplum package is not under src/, only its callers are: a segment carries
dbID, contentID, port, hostname, dataDir and role ("p" primary / "m" mirror). -/
structure SegConfig where
  dbID : Int
  contentID : Int
  port : Int
  hostname : String
  dataDir : String
  role : String
deriving DecidableEq, Repr

/-- Modelled from the spec: `SegConfig.IsCoordinator` — a segment is the
coordinator iff its contentID is the reserved sentinel -1. -/
def SegConfig.IsCoordinator (s : SegConfig) : Bool := decide (s.contentID = -1)

/-- A cluster generation (`greenplum.Cluster`), reduced to the flat list of
its segment records, which is all `AgentHosts` consumes. -/
structure Cluster where
  segments : List SegConfig
deriving DecidableEq, Repr

/-- The rank that orders primaries before mirrors at equal contentID. -/
def roleRank (s : SegConfig) : Nat := if s.role = "p" then 0 else 1

/-- Modelled from the spec: the order `SelectSegments` returns segments in —
ascending contentID, primaries before mirrors. -/
def segLE (a b : SegConfig) : Prop :=
  a.contentID < b.contentID ∨ (a.contentID = b.contentID ∧ roleRank a ≤ roleRank b)

instance : DecidableRel segLE := fun a b =>
  inferInstanceAs (Decidable (a.contentID < b.contentID ∨
    (a.contentID = b.contentID ∧ roleRank a ≤ roleRank b)))

/-- Modelled from the spec: `Cluster.SelectSegments(predicate)` — the matching
segments in ascending contentID order, primaries before mirrors. -/
def Cluster.SelectSegments (c : Cluster) (p : SegConfig → Bool) : List SegConfig :=
  (List.insertionSort segLE c.segments).filter p

/-- One insertion into the `uniqueHosts` map of `AgentHosts` (hub server
source, line 514): a Go map keyed by hostname, so a repeated host leaves the
key set unchanged. -/
def insertKey (ks : List String) (h : String) : List String :=
  if h ∈ ks then ks else ks ++ [h]

/-- The key set of the `uniqueHosts` map built by `AgentHosts` (hub server
source, lines 506-522), listed in insertion order of first occurrence over
the non-coordinator segments that `SelectSegments` yields. -/
def AgentHostsInsertionOrder (c : Cluster) : List String :=
  ((c.SelectSegments (fun seg => !seg.IsCoordinator)).map SegConfig.hostname).foldl insertKey []

/-- `AgentHosts` (hub server source, lines 506-522) builds the result by
ranging over the `uniqueHosts` Go map, whose enumeration order is
unspecified: the results the code may return are exactly the duplicate-free
enumerations — the permutations — of the map's key set. -/
def AgentHostsCanReturn (c : Cluster) (hosts : List String) : Prop :=
  hosts.Perm (AgentHostsInsertionOrder c)

lemma foldl_insertKey_mem (l : List String) :
    ∀ (acc : List String) (h : String), h ∈ l.foldl insertKey acc ↔ h ∈ acc ∨ h ∈ l := by
  induction l with
  | nil => simp
  | cons a rest ih =>
      intro acc h
      simp only [List.foldl_cons, ih, insertKey]
      by_cases ha : a ∈ acc
      · simp only [if_pos ha, List.mem_cons]
        constructor
        · rintro (hc | hc)
          · exact Or.inl hc
          · exact Or.inr (Or.inr hc)
        · rintro (hc | rfl | hc)
          · exact Or.inl hc
          · exact Or.inl ha
          · exact Or.inr hc
      · simp only [if_neg ha, List.mem_append, List.mem_singleton, List.mem_cons]
        tauto

lemma foldl_insertKey_nodup (l : List String) :
    ∀ acc : List String, acc.Nodup → (l.foldl insertKey acc).Nodup := by
  induction l with
  | nil => intro acc hacc; simpa using hacc
  | cons a rest ih =>
      intro acc hacc
      simp only [List.foldl_cons]
      refine ih _ ?_
      unfold insertKey
      by_cases ha : a ∈ acc
      · simpa [if_pos ha] using hacc
      · rw [if_neg ha]
        simpa [List.nodup_append] using ⟨hacc, ha⟩

lemma agentHostsInsertionOrder_nodup (c : Cluster) : (AgentHostsInsertionOrder c).Nodup :=
  foldl_insertKey_nodup _ [] List.nodup_nil

lemma mem_agentHostsInsertionOrder (c : Cluster) (h : String) :
    h ∈ AgentHostsInsertionOrder c ↔
      ∃ s ∈ c.segments, s.IsCoordinator = false ∧ s.hostname = h := by
  unfold AgentHostsInsertionOrder
  rw [foldl_insertKey_mem]
  simp only [List.not_mem_nil, false_or, List.mem_map, Cluster.SelectSegments,
    List.mem_filter, Bool.not_eq_true']
  constructor
  · rintro ⟨s, ⟨hsort, hcoord⟩, hh⟩
    exact ⟨s, (List.perm_insertionSort segLE c.segments).mem_iff.mp hsort, hcoord, hh⟩
  · rintro ⟨s, hmem, hcoord, hh⟩
    exact ⟨s, ⟨(List.perm_insertionSort segLE c.segments).mem_iff.mpr hmem, hcoord⟩, hh⟩

instance (c : Cluster) (hosts : List String) : Decidable (AgentHostsCanReturn c hosts) :=
  inferInstanceAs (Decidable (hosts.Perm (AgentHostsInsertionOrder c)))

/-- A single-host development cluster: the coordinator and the only primary
share the hostname mdw. -/
def mdwSharedCluster : Cluster :=
  ⟨[⟨1, -1, 15432, "mdw", "/data/master/gpseg-1", "p"⟩,
    ⟨2, 0, 25432, "mdw", "/data/primary/gpseg0", "p"⟩]⟩

/-- The two-host cluster used by the hub's own test fixture (testutils
MockCluster): coordinator on mdw, one primary on sdw1. -/
def mockCluster : Cluster :=
  ⟨[⟨1, -1, 15432, "mdw", "/data/master/gpseg-1", "p"⟩,
    ⟨2, 0, 25432, "sdw1", "/data/primary/gpseg0", "p"⟩]⟩

/-- A three-segment cluster whose non-coordinator segments live on two
distinct hosts, sdw1 (contentID 0) before sdw2 (contentID 1). -/
def threeSegCluster : Cluster :=
  ⟨[⟨1, -1, 15432, "mdw", "/data/master/gpseg-1", "p"⟩,
    ⟨2, 0, 25432, "sdw1", "/data/primary/gpseg0", "p"⟩,
    ⟨3, 1, 25433, "sdw2", "/data/primary/gpseg1", "p"⟩]⟩

/-- Counterexample to claim C6: on the single-host cluster, AgentHosts can
(and must) return ["mdw"], which IS the coordinator's hostname — a
non-coordinator segment sharing the coordinator's host puts that hostname in
the result. -/
theorem agentHosts_can_include_coordinator_hostname :
    AgentHostsCanReturn mdwSharedCluster ["mdw"] ∧
    (∃ s ∈ mdwSharedCluster.segments, s.IsCoordinator = true ∧ s.hostname = "mdw") ∧
    "mdw" ∈ (["mdw"] : List String) := by
  refine ⟨by decide, ⟨⟨1, -1, 15432, "mdw", "/data/master/gpseg-1", "p"⟩, by decide⟩, by decide⟩

/-- Claim C6 (amended): every list AgentHosts can return contains each
distinct hostname of a non-coordinator segment exactly once, regardless of
how many segments share that host; the coordinator's own hostname is absent
unless some non-coordinator segment also resides on it. -/
theorem agentHosts_dedup_nonCoordinator (c : Cluster) (hosts : List String)
    (hret : AgentHostsCanReturn c hosts) :
    hosts.Nodup ∧
    ∀ h, h ∈ hosts ↔ ∃ s ∈ c.segments, s.IsCoordinator = false ∧ s.hostname = h := by
  refine ⟨hret.nodup_iff.mpr (agentHostsInsertionOrder_nodup c), fun h => ?_⟩
  rw [hret.mem_iff, mem_agentHostsInsertionOrder]

/-- Witness for the amended C6 on the mock cluster: the only possible result
is ["sdw1"], duplicate-free and characterizing the non-coordinator segments. -/
theorem agentHosts_dedup_nonCoordinator_witness :
    (["sdw1"] : List String).Nodup ∧
    ∀ h, h ∈ (["sdw1"] : List String) ↔
      ∃ s ∈ mockCluster.segments, s.IsCoordinator = false ∧ s.hostname = h :=
  agentHosts_dedup_nonCoordinator mockCluster ["sdw1"] (by decide)

/-- Counterexample to claim C7: on the three-segment cluster the
first-occurrence insertion order is ["sdw1", "sdw2"], yet AgentHosts — which
ranges over an order-unspecified Go map — may equally return the reversed
list ["sdw2", "sdw1"]; the result order is not the insertion order. -/
theorem agentHosts_not_insertion_order :
    AgentHostsCanReturn threeSegCluster ["sdw2", "sdw1"] ∧
    AgentHostsInsertionOrder threeSegCluster = ["sdw1", "sdw2"] ∧
    (["sdw2", "sdw1"] : List String) ≠ ["sdw1", "sdw2"] := by
  refine ⟨by decide, by decide, by decide⟩

/-- Claim C7 (amended): AgentHosts returns the deduplicated non-coordinator
hostnames in an UNSPECIFIED order: the insertion order of first occurrence
over the SelectSegments sequence is one possible result, every permutation of
a possible result is again a possible result, and every possible result
enumerates exactly the insertion-order key set. -/
theorem agentHosts_order_unspecified (c : Cluster) :
    AgentHostsCanReturn c (AgentHostsInsertionOrder c) ∧
    (∀ hosts hostsAlt, AgentHostsCanReturn c hosts → hosts.Perm hostsAlt →
      AgentHostsCanReturn c hostsAlt) ∧
    ∀ hosts, AgentHostsCanReturn c hosts →
      ∀ h, h ∈ hosts ↔ h ∈ AgentHostsInsertionOrder c := by
  refine ⟨List.Perm.refl _, fun hosts hostsAlt h1 h2 => h2.symm.trans h1,
    fun hosts h1 h => h1.mem_iff⟩

/-- Witness for the amended C7 on the three-segment cluster: the insertion
order itself and its reversal are both possible results. -/
theorem agentHosts_order_unspecified_witness :
    AgentHostsCanReturn threeSegCluster (AgentHostsInsertionOrder threeSegCluster) ∧
    AgentHostsCanReturn threeSegCluster ["sdw2", "sdw1"] :=
  ⟨(agentHosts_order_unspecified threeSegCluster).1,
   (agentHosts_order_unspecified threeSegCluster).2.1
     (AgentHostsInsertionOrder threeSegCluster) ["sdw2", "sdw1"]
     (agentHosts_order_unspecified threeSegCluster).1 (by decide)⟩

/-- A flat file system: path to contents, `none` = file absent. -/
def FileSys := String → Option String

/-- Set the contents at a path (`none` deletes the file). -/
def FileSys.write (fs : FileSys) (path : String) (contents : Option String) : FileSys :=
  fun p => if p = path then contents else fs p

/-- `os.WriteFile` (Go standard library): the file is opened with
O_CREATE|O_TRUNC and then written, so the write is observable in two steps —
first the file truncated to empty, then the full contents. -/
def osWriteFileSteps (path contents : String) : List (FileSys → FileSys) :=
  [fun fs => FileSys.write fs path (some ""),
   fun fs => FileSys.write fs path (some contents)]

/-- The path of the temp file a temp-then-rename write uses, distinct from
its target. -/
def atomicTempPath (path : String) : String := path ++ ".tmp~"

/-- Modelled from the spec: `utils.AtomicallyWrite` is not under src/; the
spec specifies "rewritten atomically on every save (temp file + rename)".
The contents are written to a temp file in two steps and the rename onto the
target is one atomic step. -/
def AtomicallyWriteSteps (path contents : String) : List (FileSys → FileSys) :=
  [fun fs => FileSys.write fs (atomicTempPath path) (some ""),
   fun fs => FileSys.write fs (atomicTempPath path) (some contents),
   fun fs => FileSys.write (FileSys.write fs path (fs (atomicTempPath path)))
     (atomicTempPath path) none]

/-- Every file-system state observable while `steps` execute from `fs0`:
the state after each prefix of the step list. -/
def statesDuring (steps : List (FileSys → FileSys)) (fs0 : FileSys) : List FileSys :=
  match steps with
  | [] => [fs0]
  | f :: rest => fs0 :: statesDuring rest (f fs0)

/-- A write of `contents` to `path` is atomic when no observable state shows
anything at `path` except the old contents or the complete new contents —
no partial or corrupt file is ever visible there. -/
def NoTornWrite (path : String) (steps : List (FileSys → FileSys)) (fs0 : FileSys)
    (contents : String) : Prop :=
  ∀ fs ∈ statesDuring steps fs0, fs path = fs0 path ∨ fs path = some contents

/-- `GetConfigFile` (config source, lines 137-139): the well-known
configuration path under the state directory. -/
def GetConfigFile (stateDir : String) : String := stateDir ++ "/config.json"

/-- `Config.Save` (config source, lines 126-135): encode the configuration
(the encoded bytes are abstracted as a parameter) and hand them to
AtomicallyWrite targeting the well-known path. -/
def configSaveSteps (stateDir encoded : String) : List (FileSys → FileSys) :=
  AtomicallyWriteSteps (GetConfigFile stateDir) encoded

/-- `config.Create` (config source, lines 141-167): the hub-side bootstrap —
skip when the file exists, otherwise persist through Config.Save. -/
def configCreateSteps (stateDir encoded : String) (fs0 : FileSys) :
    List (FileSys → FileSys) :=
  if fs0 (GetConfigFile stateDir) ≠ none then [] else configSaveSteps stateDir encoded

/-- The bootstrap contents the CLI writes (cli/commanders/initialize.go,
line 83). -/
def createConfigContents (hubPort : Int) : String :=
  "\x7b\"Port\": " ++ toString hubPort ++ "\x7d"

/-- `CreateConfigFile` (cli/commanders/initialize.go, lines 66-89): the
CLI-side bootstrap creation of the configuration file — skip when the file
exists, otherwise write it DIRECTLY with os.WriteFile. -/
def CreateConfigFileSteps (stateDir : String) (hubPort : Int) (fs0 : FileSys) :
    List (FileSys → FileSys) :=
  if fs0 (GetConfigFile stateDir) ≠ none then []
  else osWriteFileSteps (GetConfigFile stateDir) (createConfigContents hubPort)

lemma atomicTempPath_ne (path : String) : GetConfigFile path ≠ atomicTempPath (GetConfigFile path) := by
  intro hcontra
  have hlen : (GetConfigFile path).length = (GetConfigFile path ++ ".tmp~").length :=
    congrArg String.length hcontra
  rw [String.length_append] at hlen
  have h5 : (".tmp~" : String).length = 5 := rfl
  omega

/-- Counterexample to claim C8: starting from an empty file system, the
CLI bootstrap `CreateConfigFile` writes the configuration path directly, and
the state after its first step shows a truncated (empty) file at the
well-known path — neither the old contents (absent) nor the complete new
contents — so a partial configuration file IS observable. -/
theorem createConfigFile_torn_write_observable :
    ¬ NoTornWrite (GetConfigFile "/home/gpadmin/.gpupgrade")
      (CreateConfigFileSteps "/home/gpadmin/.gpupgrade" 7527 (fun _ => none))
      (fun _ => none) (createConfigContents 7527) := by
  intro hcontra
  have hmem : FileSys.write (fun _ => none) (GetConfigFile "/home/gpadmin/.gpupgrade") (some "")
      ∈ statesDuring
        (CreateConfigFileSteps "/home/gpadmin/.gpupgrade" 7527 (fun _ => none))
        (fun _ => none) := by
    simp [CreateConfigFileSteps, osWriteFileSteps, statesDuring]
  have hval : FileSys.write (fun _ => none) (GetConfigFile "/home/gpadmin/.gpupgrade") (some "")
      (GetConfigFile "/home/gpadmin/.gpupgrade") = some "" := by
    simp [FileSys.write]
  have := hcontra _ hmem
  rw [hval] at this
  rcases this with h | h
  · exact Option.noConfusion h
  · have : ("" : String) = createConfigContents 7527 := Option.some_injective _ h
    exact absurd this (by decide)

/-- Claim C8 (amended): `Config.Save` — and the hub-side bootstrap
`config.Create`, which persists through Save — rewrite the configuration file
atomically via write-to-temp-then-rename, so no partial or corrupt file is
ever observable at the well-known path; the CLI bootstrap `CreateConfigFile`,
however, writes that path directly with os.WriteFile (per the
counterexample, a truncated file is observable during its write). -/
theorem configSave_noTornWrite (stateDir encoded : String) (fs0 : FileSys) :
    NoTornWrite (GetConfigFile stateDir) (configSaveSteps stateDir encoded) fs0 encoded ∧
    NoTornWrite (GetConfigFile stateDir) (configCreateSteps stateDir encoded fs0) fs0 encoded ∧
    ∀ hubPort fsInit, CreateConfigFileSteps stateDir hubPort fsInit = [] ∨
      CreateConfigFileSteps stateDir hubPort fsInit =
        osWriteFileSteps (GetConfigFile stateDir) (createConfigContents hubPort) := by
  have hne := atomicTempPath_ne stateDir
  have hsave : NoTornWrite (GetConfigFile stateDir) (configSaveSteps stateDir encoded) fs0
      encoded := by
    intro fs hfs
    simp only [configSaveSteps, AtomicallyWriteSteps, statesDuring, List.mem_cons,
      List.mem_singleton, List.not_mem_nil, or_false] at hfs
    rcases hfs with rfl | rfl | rfl | rfl
    · exact Or.inl rfl
    · exact Or.inl (by simp [FileSys.write, hne])
    · exact Or.inl (by simp [FileSys.write, hne])
    · exact Or.inr (by simp [FileSys.write, hne])
  refine ⟨hsave, ?_, ?_⟩
  · unfold configCreateSteps
    by_cases hex : fs0 (GetConfigFile stateDir) ≠ none
    · rw [if_pos hex]
      intro fs hfs
      simp only [statesDuring, List.mem_singleton] at hfs
      subst hfs
      exact Or.inl rfl
    · rw [if_neg hex]
      exact hsave
  · intro hubPort fsInit
    unfold CreateConfigFileSteps
    by_cases hex : fsInit (GetConfigFile stateDir) ≠ none
    · exact Or.inl (if_pos hex)
    · exact Or.inr (if_neg hex)

/-- Witness for the amended C8 at a concrete state directory, contents and
initial file system. -/
theorem configSave_noTornWrite_witness :
    NoTornWrite (GetConfigFile "/home/gpadmin/.gpupgrade")
      (configSaveSteps "/home/gpadmin/.gpupgrade" "\x7b\"HubPort\": 7527\x7d")
      (fun _ => none) "\x7b\"HubPort\": 7527\x7d" ∧
    NoTornWrite (GetConfigFile "/home/gpadmin/.gpupgrade")
      (configCreateSteps "/home/gpadmin/.gpupgrade" "\x7b\"HubPort\": 7527\x7d" (fun _ => none))
      (fun _ => none) "\x7b\"HubPort\": 7527\x7d" ∧
    ∀ hubPort fsInit,
      CreateConfigFileSteps "/home/gpadmin/.gpupgrade" hubPort fsInit = [] ∨
      CreateConfigFileSteps "/home/gpadmin/.gpupgrade" hubPort fsInit =
        osWriteFileSteps (GetConfigFile "/home/gpadmin/.gpupgrade")
          (createConfigContents hubPort) :=
  configSave_noTornWrite "/home/gpadmin/.gpupgrade" "\x7b\"HubPort\": 7527\x7d" (fun _ => none)

/-- A JSON value, covering the fragment of Go's encoding/json the temporary
bootstrap config exercises: strings, integer numbers, booleans, null,
objects and arrays. -/
inductive JVal
  | jstr (s : String)
  | jnum (n : Int)
  | jbool (b : Bool)
  | jnull
  | jobj (fields : List (String × JVal))
  | jarr (elems : List JVal)

/-- Skip JSON whitespace. -/
def skipWs : List Char → List Char
  | c :: rest =>
      if c = ' ' ∨ c = '\t' ∨ c = '\n' ∨ c = '\r' then skipWs rest else c :: rest
  | [] => []

/-- Parse the body of a JSON string literal after its opening quote,
unescaping the simple escapes (\u is not modelled and fails the parse). -/
def parseStringBody : Nat → List Char → Option (String × List Char)
  | 0, _ => none
  | _ + 1, [] => none
  | fuel + 1, c :: rest =>
      if c = '"' then some ("", rest)
      else if c = '\\' then
        match rest with
        | [] => none
        | e :: rest2 =>
            let esc : Option Char :=
              if e = '"' then some '"'
              else if e = '\\' then some '\\'
              else if e = '/' then some '/'
              else if e = 'n' then some '\n'
              else if e = 't' then some '\t'
              else if e = 'r' then some '\r'
              else none
            match esc with
            | none => none
            | some ch =>
                (parseStringBody fuel rest2).map (fun r => (String.mk (ch :: r.1.data), r.2))
      else (parseStringBody fuel rest).map (fun r => (String.mk (c :: r.1.data), r.2))

/-- Split the longest prefix of decimal digits. -/
def spanDigits : List Char → List Char × List Char
  | [] => ([], [])
  | c :: rest =>
      if c.isDigit then
        let r := spanDigits rest
        (c :: r.1, r.2)
      else ([], c :: rest)

/-- Decimal digits to a natural number. -/
def digitsToNat (ds : List Char) : Nat :=
  ds.foldl (fun acc c => acc * 10 + (c.toNat - '0'.toNat)) 0

/-- Parse a JSON number.  Only integer numerals are modelled — a fraction or
exponent fails the parse — which covers the int-typed Port field (into which
Go would reject a fractional value anyway). -/
def parseNumber (chars : List Char) : Option (JVal × List Char) :=
  let p : Bool × List Char :=
    match chars with
    | '-' :: r => (true, r)
    | r => (false, r)
  match spanDigits p.2 with
  | ([], _) => none
  | (ds, r) =>
      let bad : Bool :=
        match r with
        | c :: _ => decide (c = '.' ∨ c = 'e' ∨ c = 'E')
        | [] => false
      if bad then none
      else
        let n : Int := Int.ofNat (digitsToNat ds)
        some (JVal.jnum (if p.1 then -n else n), r)

/-- Match a literal character sequence. -/
def stripLit : List Char → List Char → Option (List Char)
  | [], chars => some chars
  | l :: ls, c :: cs => if c = l then stripLit ls cs else none
  | _ :: _, [] => none

mutual

/-- Parse one JSON value (fuel-bounded recursive descent). -/
def parseValue : Nat → List Char → Option (JVal × List Char)
  | 0, _ => none
  | fuel + 1, chars =>
      match skipWs chars with
      | [] => none
      | c :: rest =>
          if c = '"' then
            (parseStringBody (fuel + 1) rest).map (fun r => (JVal.jstr r.1, r.2))
          else if c = '{' then
            match skipWs rest with
            | '}' :: rest2 => some (JVal.jobj [], rest2)
            | rest2 => (parseMembers fuel rest2).map (fun r => (JVal.jobj r.1, r.2))
          else if c = '[' then
            match skipWs rest with
            | ']' :: rest2 => some (JVal.jarr [], rest2)
            | rest2 => (parseElems fuel rest2).map (fun r => (JVal.jarr r.1, r.2))
          else if c = 't' then
            (stripLit ['r', 'u', 'e'] rest).map (fun r => (JVal.jbool true, r))
          else if c = 'f' then
            (stripLit ['a', 'l', 's', 'e'] rest).map (fun r => (JVal.jbool false, r))
          else if c = 'n' then
            (stripLit ['u', 'l', 'l'] rest).map (fun r => (JVal.jnull, r))
          else if c = '-' ∨ c.isDigit then parseNumber (c :: rest)
          else none

/-- Parse the members of a JSON object after its opening brace (at least
one member expected; the empty object is handled by `parseValue`). -/
def parseMembers : Nat → List Char → Option (List (String × JVal) × List Char)
  | 0, _ => none
  | fuel + 1, chars =>
      match skipWs chars with
      | '"' :: rest =>
          match parseStringBody (fuel + 1) rest with
          | none => none
          | some (key, rest2) =>
              match skipWs rest2 with
              | ':' :: rest3 =>
                  match parseValue fuel rest3 with
                  | none => none
                  | some (v, rest4) =>
                      match skipWs rest4 with
                      | ',' :: rest5 =>
                          (parseMembers fuel rest5).map (fun r => ((key, v) :: r.1, r.2))
                      | '}' :: rest5 => some ([(key, v)], rest5)
                      | _ => none
              | _ => none
      | _ => none

/-- Parse the elements of a JSON array after its opening bracket. -/
def parseElems : Nat → List Char → Option (List JVal × List Char)
  | 0, _ => none
  | fuel + 1, chars =>
      match parseValue fuel chars with
      | none => none
      | some (v, rest) =>
          match skipWs rest with
          | ',' :: rest2 => (parseElems fuel rest2).map (fun r => (v :: r.1, r.2))
          | ']' :: rest2 => some ([v], rest2)
          | _ => none

end

/-- The temporary bootstrap configuration (cli/commands revert source, lines
586-589): GPHome and source coordinator port, written before the hub exists
and consumed by the no-hub revert path. -/
structure TemporaryConfig where
  GPHome : String
  Port : Int
deriving DecidableEq, Repr

/-- Go json struct-field matching: an exact field-name match is preferred,
otherwise a case-insensitive one. -/
def lookupField (fields : List (String × JVal)) (name : String) : Option JVal :=
  match fields.find? (fun f => f.1 == name) with
  | some f => some f.2
  | none => (fields.find? (fun f => f.1.toLower == name.toLower)).map Prod.snd

/-- `TemporaryConfig.Load` (cli/commands revert source, lines 591-609):
json-decode the file contents into the two typed fields.  `none` models the
decoder returning an error: invalid JSON, a non-object document, or an
ill-typed field; a missing field leaves the Go zero value. -/
def TemporaryConfigLoad (contents : String) : Option TemporaryConfig :=
  match parseValue (contents.length + 1) contents.data with
  | some (JVal.jobj fields, _) =>
      let gph : Option String :=
        match lookupField fields "GPHome" with
        | none => some ""
        | some (JVal.jstr s) => some s
        | some _ => none
      let port : Option Int :=
        match lookupField fields "Port" with
        | none => some 0
        | some (JVal.jnum n) => some n
        | some _ => none
      match gph, port with
      | some g, some p => some ⟨g, p⟩
      | _, _ => none
  | _ => none

/-- The file contents `CreateTemporaryConfigFile` writes
(cli/commanders/initialize.go, line 53): note the UNQUOTED interpolation of
the gphome string into the JSON template. -/
def createTemporaryConfigContents (gphome : String) (port : Int) : String :=
  "\x7b\"GPHome\": " ++ gphome ++ ", \"Port\": " ++ toString port ++ "\x7d"

/-- Claim C9, evaluated at the failing input (code bug): for the ordinary
gphome "/usr/local/greenplum", the temporary bootstrap file contains the
gphome unquoted, which is not valid JSON, so TemporaryConfig.Load fails
instead of yielding the written values back — while the properly quoted
variant (what a %q interpolation would have produced) round-trips exactly. -/
theorem temporaryConfig_roundTrip_fails :
    createTemporaryConfigContents "/usr/local/greenplum" 5432
      = "\x7b\"GPHome\": /usr/local/greenplum, \"Port\": 5432\x7d" ∧
    TemporaryConfigLoad (createTemporaryConfigContents "/usr/local/greenplum" 5432) = none ∧
    TemporaryConfigLoad "\x7b\"GPHome\": \"/usr/local/greenplum\", \"Port\": 5432\x7d"
      = some ⟨"/usr/local/greenplum", 5432⟩ :=
  ⟨rfl, rfl, rfl⟩
